import Mathlib

/-!
Verification development for the globalAI news-aggregation pipeline.

Each definition below is a shallow embedding of a function of the
TypeScript source (file and symbol named in its doc comment).  Machine
numbers are modelled as `ℚ` (exact arithmetic); JavaScript `Math.round`
is `jsRound`; external library kernels (regular-expression match
counting, the `compromise` NLP tagger, `JSON.stringify`/`JSON.parse`)
enter as explicit function parameters.
-/

/-- JavaScript `Math.round`: round half toward positive infinity. -/
def jsRound (x : ℚ) : ℤ := ⌊x + 1/2⌋

/-! ## Rate limiter (src/server/src/utils/retry.ts, class RateLimiter) -/

/-- Mutable state of `RateLimiter`: current token count and the
`lastRefill` timestamp (milliseconds). -/
structure RLState where
  tokens : ℤ
  lastRefill : ℚ
deriving Repr, DecidableEq

/-- Construction `new RateLimiter(maxRequests, windowMs)` at time `now`:
`tokens = maxRequests`, `lastRefill = Date.now()`. -/
def RLState.init (maxRequests : ℤ) (now : ℚ) : RLState :=
  { tokens := maxRequests, lastRefill := now }

/-- `refillRateMs = windowMs / maxRequests` as computed in the constructor. -/
def refillRate (maxRequests : ℤ) (windowMs : ℚ) : ℚ := windowMs / maxRequests

/-- `RateLimiter.refill()`: lazily add `floor(elapsed / refillRateMs)`
tokens, capped at `maxTokens`, resetting `lastRefill` only when at least
one token was added. -/
def RLState.refill (s : RLState) (maxTokens : ℤ) (rate : ℚ) (now : ℚ) : RLState :=
  let elapsed := now - s.lastRefill
  let tokensToAdd := ⌊elapsed / rate⌋
  if 0 < tokensToAdd then
    { tokens := min maxTokens (s.tokens + tokensToAdd), lastRefill := now }
  else s

/-- `RateLimiter.acquire()` started at time `now`: returns the new state
and the sleep delay (0 when a token was immediately available).  In the
delayed branch the code sleeps `max 0 (refillRateMs - (now - lastRefill))`,
then sets `tokens = 0` and `lastRefill = Date.now()` (the wake-up time). -/
def RLState.acquire (s : RLState) (maxTokens : ℤ) (rate : ℚ) (now : ℚ) :
    RLState × ℚ :=
  let s1 := s.refill maxTokens rate now
  if 0 < s1.tokens then
    ({ s1 with tokens := s1.tokens - 1 }, 0)
  else
    let waitTime := max 0 (rate - (now - s1.lastRefill))
    ({ tokens := 0, lastRefill := now + waitTime }, waitTime)

/-- A serialized sequence of `acquire()` calls: the k-th call starts at
the k-th arrival time; returns the final state and the list of delays. -/
def RLState.run (s : RLState) (maxTokens : ℤ) (rate : ℚ) :
    List ℚ → RLState × List ℚ
  | [] => (s, [])
  | t :: ts =>
    let (s1, d) := s.acquire maxTokens rate t
    let (s2, ds) := s1.run maxTokens rate ts
    (s2, d :: ds)

/-! ## Retry wrapper (src/server/src/utils/retry.ts, withRetry) -/

/-- `RetryOptions` after merging with `defaultOptions`. -/
structure RetryOptions where
  maxRetries : ℕ
  baseDelayMs : ℚ
  maxDelayMs : ℚ

/-- `isRetryableError`: the default retry classifier, keyed on the
lower-cased error message. -/
def isRetryableError (message : String) : Bool :=
  let m := message.toLower
  m.containsSubstr "econnreset" || m.containsSubstr "etimedout" ||
  m.containsSubstr "enotfound" || m.containsSubstr "socket hang up" ||
  m.containsSubstr "network" || m.containsSubstr "rate limit" ||
  m.containsSubstr "429" || m.containsSubstr "503" || m.containsSubstr "502"

/-- The body of the `withRetry` loop from attempt index `k`, with
`remaining = opts.maxRetries - k` retries still allowed.  `op k` is the
outcome of the k-th invocation of `operation`; `jitter k` models the
`Math.random() * 1000` term of attempt `k`.  Returns the final outcome
and the list of backoff delays actually slept. -/
def retryGo {ε α : Type} (op : ℕ → Except ε α) (shouldRetry : ε → Bool)
    (base maxD : ℚ) (jitter : ℕ → ℚ) : ℕ → ℕ → Except ε α × List ℚ
  | 0, k =>
    match op k with
    | .ok a => (.ok a, [])
    | .error e => (.error e, [])
  | r + 1, k =>
    match op k with
    | .ok a => (.ok a, [])
    | .error e =>
      if shouldRetry e then
        let d := min (base * 2 ^ k + jitter k) maxD
        let rest := retryGo op shouldRetry base maxD jitter r (k + 1)
        (rest.1, d :: rest.2)
      else (.error e, [])

/-- `withRetry(operation, name, options)`: attempts `0 .. maxRetries`,
re-throwing at the last attempt or on a non-retryable error, sleeping
`min(baseDelayMs * 2^attempt + jitter, maxDelayMs)` between attempts. -/
def withRetry {ε α : Type} (op : ℕ → Except ε α) (shouldRetry : ε → Bool)
    (opts : RetryOptions) (jitter : ℕ → ℚ) : Except ε α × List ℚ :=
  retryGo op shouldRetry opts.baseDelayMs opts.maxDelayMs jitter opts.maxRetries 0

/-! ## Cache abstraction (src/server/src/services/cache.ts, CacheService) -/

/-- The Redis backend modelled as a key/value string store (no backend
errors; TTL expiry is modelled by a key simply being absent). -/
def CacheStore := String → Option String

/-- The empty backend. -/
def CacheStore.empty : CacheStore := fun _ => none

/-- `CacheService.get(key)`: read the serialized string; a falsy value
(absent key or empty string) yields `null`; otherwise `JSON.parse` it.
`parse` is the external `JSON.parse`, with JS `null` as `none`. -/
def cacheGet {β : Type} (parse : String → Option β) (st : CacheStore)
    (key : String) : Option β :=
  match st key with
  | none => none
  | some s => if s = "" then none else parse s

/-- `CacheService.set(key, value, ttl)`: store `JSON.stringify(value)`.
`stringify` is the external `JSON.stringify` (JS `null` is `none`). -/
def cacheSet {β : Type} (stringify : Option β → String) (st : CacheStore)
    (key : String) (value : Option β) : CacheStore :=
  fun k => if k = key then some (stringify value) else st k

/-- `CacheService.getOrSet(key, fetchFn, ttl)`: return the cached value if
`get` returned non-null, else run `fetchFn`, store and return its value.
The Bool records whether `fetchFn` ran. -/
def cacheGetOrSet {β : Type} (parse : String → Option β)
    (stringify : Option β → String) (st : CacheStore) (key : String)
    (fetchFn : Unit → Option β) : Option β × CacheStore × Bool :=
  match cacheGet parse st key with
  | some v => (some v, st, false)
  | none =>
    let value := fetchFn ()
    (value, cacheSet stringify st key value, true)

/-! ## Intensity scorer (src/server/src/services/aggregator/intensity.ts) -/

/-- The fixed taxonomy (src/server/src/types + classifier). -/
inductive EventCategory where
  | conflict | politics | disaster | economics | health | technology | environment
deriving Repr, DecidableEq

/-- A raw news item (src/server/src/types, RawNewsItem).  Optional numeric
fields are `Option ℚ`; `timestamp` is epoch milliseconds. -/
structure Location where
  lat : Option ℚ
  lng : Option ℚ
  name : Option String
deriving Repr, DecidableEq

structure RawNewsItem where
  title : String
  summary : Option String
  url : String
  timestamp : ℚ
  source : String
  imageUrl : Option String
  location : Option Location
  gdeltTone : Option ℚ
  themes : List String
deriving Repr, DecidableEq

/-- A merged duplicate cluster (dedup service, interface MergedEvent). -/
structure MergedEvent where
  canonicalItem : RawNewsItem
  sources : List String
  sourceUrls : List String
  sourceCount : ℕ
deriving Repr, DecidableEq

/-- `INTENSITY_KEYWORDS`: the high-impact lexicon with its weights. -/
def INTENSITY_KEYWORDS : List (String × ℚ) :=
  [("breaking", 15), ("urgent", 12), ("emergency", 15), ("crisis", 12),
   ("mass casualty", 20), ("massacre", 18), ("genocide", 20), ("war crime", 18),
   ("thousands", 8), ("millions", 12), ("billions", 15), ("nationwide", 10),
   ("worldwide", 12), ("global", 10), ("unprecedented", 10), ("historic", 8),
   ("record-breaking", 8),
   ("deadly", 12), ("fatal", 10), ("catastrophic", 15), ("devastating", 12),
   ("massive", 8), ("major", 6), ("severe", 8), ("critical", 10),
   ("imminent", 10), ("immediate", 8), ("underway", 6), ("ongoing", 5),
   ("escalating", 8), ("intensifying", 8),
   ("collapse", 10), ("explosion", 8), ("destruction", 10), ("shutdown", 6),
   ("blockade", 8)]

/-- Intensity configuration (config/index.ts, `config.intensity`). -/
def sourceCountWeight : ℚ := 20
def toneWeight : ℚ := 10
def recencyDecayHours : ℚ := 24

/-- `config.intensity.categoryMultipliers`, with the `|| 1.0` default of
`calculateIntensity`. -/
def categoryMultiplier : EventCategory → ℚ
  | .conflict => 3/2
  | .disaster => 7/5
  | .politics => 6/5
  | .health => 11/10
  | .economics => 1
  | .environment => 1
  | .technology => 9/10

/-- The analysed text `title + " " + (summary || "")` lower-cased. -/
def itemText (item : RawNewsItem) : String :=
  (item.title ++ " " ++ item.summary.getD "").toLower

/-- `IntensityService.analyzeKeywords`: sum `weight * matches` over the
lexicon, capped at 50.  `wm text kw` is the count, by the external regex
engine, of whole-word matches of `kw` in `text`. -/
def analyzeKeywords (wm : String → String → ℕ) (item : RawNewsItem) : ℚ :=
  min ((INTENSITY_KEYWORDS.map (fun p => p.2 * (wm (itemText item) p.1 : ℚ))).sum) 50

/-- `IntensityService.calculateRecencyBonus` (times in ms). -/
def calculateRecencyBonus (now timestamp : ℚ) : ℚ :=
  let hoursAgo := (now - timestamp) / (1000 * 60 * 60)
  if hoursAgo < 0 then 0
  else if hoursAgo ≤ 1 then 20
  else if hoursAgo ≤ recencyDecayHours then 20 * (1 - hoursAgo / recencyDecayHours)
  else 0

/-- The raw (pre-normalization) intensity of `calculateIntensity`. -/
def rawIntensity (wm : String → String → ℕ) (now : ℚ) (event : MergedEvent)
    (category : EventCategory) : ℚ :=
  let item := event.canonicalItem
  let sourceScore := min (event.sourceCount : ℚ) 10 * sourceCountWeight
  let toneScore := match item.gdeltTone with
    | some t => |t| * toneWeight
    | none => 0
  let keywordScore := analyzeKeywords wm item
  let recencyBonus := calculateRecencyBonus now item.timestamp
  (sourceScore + toneScore + keywordScore + recencyBonus) * categoryMultiplier category

/-- `IntensityService.calculateIntensity`: normalize `rawIntensity` by
`maxExpected = 150` and clamp above at 100. -/
def calculateIntensity (wm : String → String → ℕ) (now : ℚ) (event : MergedEvent)
    (category : EventCategory) : ℤ :=
  min 100 (jsRound (rawIntensity wm now event category / 150 * 100))

/-! ## Classifier (src/unnamed/part_005, ClassifierService) -/

/-- Iteration order of the `scores` record and of `CATEGORY_DEFINITIONS`
(declaration order). -/
def CATEGORY_ORDER : List EventCategory :=
  [.conflict, .politics, .disaster, .economics, .health, .technology, .environment]

/-- Keyword lists of `CATEGORY_DEFINITIONS`. -/
def categoryKeywords : EventCategory → List String
  | .conflict =>
    ["war", "military", "attack", "bomb", "explosion", "troops", "soldier",
     "battle", "conflict", "violence", "strike", "missile", "weapon", "army",
     "navy", "air force", "combat", "killed", "casualties", "hostage",
     "terrorist", "terrorism", "insurgent", "rebel", "militia", "invasion",
     "offensive", "defense", "ceasefire", "airstrike", "drone strike",
     "ambush", "shootout", "gunfire", "assassination", "warfare"]
  | .politics =>
    ["election", "vote", "president", "prime minister", "parliament",
     "congress", "senate", "government", "minister", "policy", "legislation",
     "law", "bill", "campaign", "candidate", "democrat", "republican",
     "party", "coalition", "opposition", "referendum", "diplomat",
     "diplomacy", "summit", "treaty", "sanction", "ambassador",
     "foreign affairs", "state department", "political", "governor",
     "mayor", "council", "judiciary", "supreme court"]
  | .disaster =>
    ["earthquake", "flood", "hurricane", "tornado", "tsunami", "volcano",
     "wildfire", "fire", "storm", "cyclone", "typhoon", "drought",
     "landslide", "avalanche", "disaster", "emergency", "evacuation",
     "rescue", "casualties", "damage", "destruction", "collapse",
     "accident", "crash", "derailment", "explosion", "blast", "survivors",
     "death toll", "missing", "natural disaster", "climate disaster",
     "heatwave", "cold wave", "blizzard"]
  | .economics =>
    ["economy", "economic", "market", "stock", "trade", "inflation",
     "recession", "gdp", "unemployment", "job", "employment", "bank",
     "banking", "interest rate", "federal reserve", "central bank",
     "currency", "dollar", "euro", "investment", "investor", "profit",
     "revenue", "earnings", "business", "company", "corporation", "merger",
     "acquisition", "bankruptcy", "debt", "deficit", "budget", "tax",
     "tariff", "export", "import", "supply chain"]
  | .health =>
    ["health", "medical", "hospital", "doctor", "patient", "disease",
     "virus", "pandemic", "epidemic", "outbreak", "vaccine", "vaccination",
     "covid", "coronavirus", "infection", "treatment", "medicine",
     "pharmaceutical", "drug", "cancer", "heart", "mental health", "who",
     "world health", "cdc", "fda", "clinical trial", "research", "study",
     "symptoms", "diagnosis", "healthcare", "insurance", "mortality",
     "life expectancy"]
  | .technology =>
    ["technology", "tech", "ai", "artificial intelligence",
     "machine learning", "software", "hardware", "computer", "internet",
     "cyber", "hack", "data", "digital", "app", "smartphone", "apple",
     "google", "microsoft", "amazon", "facebook", "meta", "tesla",
     "spacex", "startup", "innovation", "robot", "automation", "chip",
     "semiconductor", "cryptocurrency", "bitcoin", "blockchain", "cloud",
     "privacy", "security", "5g", "electric vehicle"]
  | .environment =>
    ["climate", "environment", "environmental", "global warming", "carbon",
     "emission", "pollution", "renewable", "solar", "wind", "energy",
     "green", "sustainable", "conservation", "wildlife", "species",
     "biodiversity", "deforestation", "ocean", "sea level", "ice",
     "glacier", "arctic", "antarctic", "coral", "reef", "plastic",
     "recycling", "ecosystem", "nature", "forest", "rainforest",
     "endangered", "extinction", "paris agreement", "cop", "climate summit"]

/-- Keyword weights of `CATEGORY_DEFINITIONS`. -/
def keywordWeight : EventCategory → ℚ
  | .conflict => 3/2
  | .politics => 6/5
  | .disaster => 7/5
  | .economics => 1
  | .health => 11/10
  | .technology => 9/10
  | .environment => 1

/-- `GDELT_THEME_MAP` in declaration order. -/
def GDELT_THEME_MAP : List (String × EventCategory) :=
  [("TERROR", .conflict), ("KILL", .conflict), ("PROTEST", .politics),
   ("MILITARY", .conflict), ("ARMED_CONFLICT", .conflict),
   ("NATURAL_DISASTER", .disaster), ("EARTHQUAKE", .disaster),
   ("FLOOD", .disaster), ("EPIDEMIC", .health), ("HEALTH", .health),
   ("ELECTION", .politics), ("GOVERNMENT", .politics),
   ("ECONOMY", .economics), ("BUSINESS", .economics),
   ("TECHNOLOGY", .technology), ("SCIENCE", .technology),
   ("ENVIRONMENT", .environment), ("CLIMATE", .environment)]

/-- Theme contribution: for each supplied theme and each map entry whose
key occurs in the upper-cased theme, `scores[category] += 3`. -/
def themeScoreOf (themes : List String) (cat : EventCategory) : ℚ :=
  3 * ((themes.map (fun th =>
    (GDELT_THEME_MAP.filter
      (fun e => th.toUpper.containsSubstr e.1 && e.2 == cat)).length)).sum : ℚ)

/-- Keyword contribution: `matches * weight` summed over the keyword list
of the category; `wm text kw` is the external regex whole-word match count. -/
def keywordScoreOf (wm : String → String → ℕ) (text : String)
    (cat : EventCategory) : ℚ :=
  ((categoryKeywords cat).map (fun kw => (wm text kw : ℚ) * keywordWeight cat)).sum

/-- Tone contribution: a very negative GDELT tone (< -5) adds 1 to both
conflict and disaster. -/
def toneScoreOf (tone : Option ℚ) (cat : EventCategory) : ℚ :=
  match tone with
  | some t =>
    if t < -5 && (cat == EventCategory.conflict || cat == EventCategory.disaster)
    then 1 else 0
  | none => 0

/-- The accumulated score of one category in `ClassifierService.classify`. -/
def scoresOf (wm : String → String → ℕ) (item : RawNewsItem)
    (cat : EventCategory) : ℚ :=
  themeScoreOf item.themes cat + keywordScoreOf wm (itemText item) cat +
    toneScoreOf item.gdeltTone cat

/-- The strict-max fold over `Object.entries(scores)` with initial
accumulator `(politics, 0)`. -/
def classifyFold (f : EventCategory → ℚ) : EventCategory × ℚ :=
  CATEGORY_ORDER.foldl (fun acc c => if f c > acc.2 then (c, f c) else acc)
    (.politics, 0)

/-- `ClassifierService.classify`: highest strictly-increasing score wins;
on an all-zero maximum fall back to the source-name heuristic. -/
def classify (wm : String → String → ℕ) (item : RawNewsItem) : EventCategory :=
  let r := classifyFold (scoresOf wm item)
  if r.2 = 0 then
    if item.source.toLower.containsSubstr "tech" then .technology
    else if item.source.toLower.containsSubstr "business" then .economics
    else r.1
  else r.1

/-! ## Location extraction (src/server/src/services/geocoder/index.ts) -/

inductive LocType where
  | country | city | region | organization
deriving Repr, DecidableEq

structure ExtractedLocation where
  name : String
  lat : ℚ
  lng : ℚ
  confidence : ℚ
  ltype : LocType
deriving Repr, DecidableEq

inductive ExtractionMethod where
  | nlp | pattern | manual
deriving Repr, DecidableEq

structure GeoExtraction where
  locations : List ExtractedLocation
  confidence : ℚ
  method : ExtractionMethod
deriving Repr, DecidableEq

/-- One entry of the `MARKET_PATTERNS` table (from the untracked
`locationMappings` module): the compiled regex is the external test
function, and `locs` are the member locations of the pattern
`(name, lat, lng, confidence)`. -/
structure PatternEntry where
  test : String → Bool
  locs : List (String × ℚ × ℚ × ℚ)

/-- One `ORGANIZATION_LOCATIONS` entry: organization key and member
locations `(name, lat, lng)`. -/
structure OrgEntry where
  org : String
  locs : List (String × ℚ × ℚ)

/-- One `COUNTRY_CENTROIDS` entry: country key, centroid, aliases. -/
structure CentroidEntry where
  key : String
  lat : ℚ
  lng : ℚ
  aliases : List String

/-- `GeocoderService.matchPatterns`: every matching pattern contributes
all of its locations, typed `country`, with no duplicate filtering. -/
def matchPatterns (pats : List PatternEntry) (question : String) :
    List ExtractedLocation :=
  (pats.filter (fun e => e.test question)).flatMap
    (fun e => e.locs.map (fun l => ⟨l.1, l.2.1, l.2.2.1, l.2.2.2, .country⟩))

/-- `GeocoderService.matchOrganizations`: an upper-cased substring match
on the organization key contributes the first three member locations at
confidence 0.75. -/
def matchOrganizations (orgs : List OrgEntry) (question : String) :
    List ExtractedLocation :=
  (orgs.filter (fun o => question.toUpper.containsSubstr o.org)).flatMap
    (fun o => (o.locs.take 3).map (fun l => ⟨l.1, l.2.1, l.2.2, 3/4, .organization⟩))

/-- `GeocoderService.resolveLocation`: case-insensitive exact match of the
trimmed place name against a country key or one of its aliases. -/
def resolveLocation (cents : List CentroidEntry) (placeName : String) :
    Option ExtractedLocation :=
  let normalized := placeName.trim
  (cents.find? (fun c =>
      c.key.toLower == normalized.toLower ||
      c.aliases.any (fun a => a.toLower == normalized.toLower))).map
    (fun c => ⟨c.key, c.lat, c.lng, 4/5, .country⟩)

/-- Append each location of `toAdd` unless an already-collected location
has the same `(lat, lng)` pair (the `locations.find` guard). -/
def pushIfNewCoord (acc : List ExtractedLocation)
    (toAdd : List ExtractedLocation) : List ExtractedLocation :=
  toAdd.foldl (fun acc loc =>
    if acc.any (fun l => l.lat == loc.lat && l.lng == loc.lng) then acc
    else acc ++ [loc]) acc

/-- `GeocoderService.extractWithNLP`: resolve the place names found by
the external NLP tagger (no duplicate guard), then scan the country
gazetteer with a duplicate guard against the local list of this layer. -/
def extractWithNLP (cents : List CentroidEntry) (places : String → List String)
    (question : String) : List ExtractedLocation :=
  let fromPlaces := (places question).filterMap (resolveLocation cents)
  cents.foldl (fun acc c =>
    if (c.key :: c.aliases).any
        (fun n => question.toLower.containsSubstr n.toLower) then
      if acc.any (fun l => l.lat == c.lat && l.lng == c.lng) then acc
      else acc ++ [⟨c.key, c.lat, c.lng, 7/10, .country⟩]
    else acc) fromPlaces

/-- `GeocoderService.extractLocations`: pattern layer appended wholesale,
organization and NLP layers appended under the coordinate-equality
guard; overall confidence is the mean of per-candidate confidences. -/
def extractLocations (pats : List PatternEntry) (orgs : List OrgEntry)
    (cents : List CentroidEntry) (places : String → List String)
    (question : String) : GeoExtraction :=
  let patternLocations := matchPatterns pats question
  let afterOrgs := pushIfNewCoord patternLocations (matchOrganizations orgs question)
  let locations := pushIfNewCoord afterOrgs (extractWithNLP cents places question)
  let confidence :=
    if locations.length ≠ 0
    then (locations.map (·.confidence)).sum / locations.length
    else 0
  { locations := locations
    confidence := confidence
    method := if locations.length ≠ 0 && patternLocations.length ≠ 0
              then .pattern else .nlp }

/-! ## Deduplication engine (src/unnamed/part_007, DeduplicationService) -/

/-- `config.deduplication`. -/
structure DedupConfig where
  fuzzyThreshold : ℚ
  radiusKm : ℚ
  timeWindowHours : ℚ
deriving Repr, DecidableEq

/-- The configured defaults (config/index.ts). -/
def defaultDedupConfig : DedupConfig :=
  { fuzzyThreshold := 7/10, radiusKm := 50, timeWindowHours := 24 }

/-- A JS `\w` word character: ASCII letter, digit or underscore. -/
def isWordChar (c : Char) : Bool := c.isAlphanum || c = '_'

/-- Collapse every whitespace run to a single space (`replace(/\s+/g, ' ')`). -/
def squeezeSpaces : List Char → List Char
  | [] => []
  | [c] => [if c.isWhitespace then ' ' else c]
  | c :: c2 :: cs =>
    if c.isWhitespace && c2.isWhitespace then squeezeSpaces (c2 :: cs)
    else (if c.isWhitespace then ' ' else c) :: squeezeSpaces (c2 :: cs)

/-- `DeduplicationService.normalizeTitle`: lower-case, strip punctuation
(keep `\w` and `\s`), collapse whitespace, trim. -/
def normalizeTitle (title : String) : String :=
  (String.mk (squeezeSpaces
    (title.toLower.toList.filter (fun c => isWordChar c || c.isWhitespace)))).trim

/-- Levenshtein distance with substitution cost 2 (insert/delete cost 1),
the metric underlying `fuzzball.ratio`. -/
def lev2 : List Char → List Char → ℕ
  | [], ys => ys.length
  | x :: xs, [] => (x :: xs).length
  | x :: xs, y :: ys =>
    if x = y then lev2 xs ys
    else min (min (lev2 xs (y :: ys) + 1) (lev2 (x :: xs) ys + 1)) (lev2 xs ys + 2)
termination_by xs ys => xs.length + ys.length

/-- `fuzzball.ratio`: `round(100 * (lensum - distance) / lensum)` (100 for
two empty strings). -/
def fuzzRatioOf (s1 s2 : String) : ℚ :=
  let d := lev2 s1.toList s2.toList
  let t := s1.length + s2.length
  if t = 0 then 100 else ((jsRound (100 * ((t : ℚ) - d) / t) : ℤ) : ℚ)

/-- `toRad` (dedup service). -/
noncomputable def toRadR (deg : ℝ) : ℝ := deg * (Real.pi / 180)

/-- JavaScript `Math.atan2`. -/
noncomputable def jsAtan2 (y x : ℝ) : ℝ :=
  if 0 < x then Real.arctan (y / x)
  else if x < 0 ∧ 0 ≤ y then Real.arctan (y / x) + Real.pi
  else if x < 0 then Real.arctan (y / x) - Real.pi
  else if 0 < y then Real.pi / 2
  else if y < 0 then -(Real.pi / 2)
  else 0

/-- `DeduplicationService.haversineDistance` (kilometres). -/
noncomputable def haversineDistance (lat1 lon1 lat2 lon2 : ℝ) : ℝ :=
  let dLat := toRadR (lat2 - lat1)
  let dLon := toRadR (lon2 - lon1)
  let a := Real.sin (dLat / 2) * Real.sin (dLat / 2) +
    Real.cos (toRadR lat1) * Real.cos (toRadR lat2) *
      Real.sin (dLon / 2) * Real.sin (dLon / 2)
  let c := 2 * jsAtan2 (Real.sqrt a) (Real.sqrt (1 - a))
  6371 * c

/-- The coordinates of an item when both `location?.lat` and
`location?.lng` are defined (`!== undefined`). -/
def coordsOf (i : RawNewsItem) : Option (ℚ × ℚ) :=
  match i.location with
  | some l =>
    match l.lat, l.lng with
    | some la, some ln => some (la, ln)
    | _, _ => none
  | none => none

/-- `DeduplicationService.areSimilar`: inside the time window, within the
radius when both items carry coordinates, and fuzzy title similarity at
least the threshold. -/
def areSimilar (cfg : DedupConfig) (a b : RawNewsItem) : Prop :=
  |a.timestamp - b.timestamp| / (1000 * 60 * 60) ≤ cfg.timeWindowHours ∧
  (∀ pa pb, coordsOf a = some pa → coordsOf b = some pb →
    haversineDistance pa.1 pa.2 pb.1 pb.2 ≤ (cfg.radiusKm : ℝ)) ∧
  fuzzRatioOf (normalizeTitle a.title) (normalizeTitle b.title) / 100 ≥
    cfg.fuzzyThreshold

open Classical in
/-- The greedy single-link grouping loop of
`DeduplicationService.deduplicate`: the first unprocessed item seeds a
group; every later unprocessed item similar to that seed joins it and is
marked processed. -/
noncomputable def dedupGroups (cfg : DedupConfig) :
    List RawNewsItem → List (List RawNewsItem)
  | [] => []
  | x :: rest =>
    (x :: rest.filter (fun y => decide (areSimilar cfg x y))) ::
      dedupGroups cfg (rest.filter (fun y => !decide (areSimilar cfg x y)))
termination_by l => l.length
decreasing_by
  simp only [List.length_cons]
  exact Nat.lt_succ_of_le (List.length_filter_le _ _)

/-- JS truthiness of an optional string (`undefined` and `""` are falsy). -/
def strTruthy : Option String → Bool
  | some s => s ≠ ""
  | none => false

/-- Truthiness of `location?.lat` (`undefined`, missing location and `0`
are all falsy). -/
def latTruthy : Option Location → Bool
  | some l =>
    match l.lat with
    | some v => v ≠ 0
    | none => false
  | none => false

/-- Whether `item.location?.lat !== undefined`. -/
def latDefined (i : RawNewsItem) : Bool :=
  match i.location with
  | some l => l.lat.isSome
  | none => false

/-- `DeduplicationService.qualityScore`: fixed bonuses for coordinates,
image, long summary and tone, minus an age penalty capped at 1000 minutes. -/
def qualityScore (now : ℚ) (item : RawNewsItem) : ℚ :=
  (if latDefined item then 100 else 0) +
  (if strTruthy item.imageUrl then 50 else 0) +
  (if (item.summary.getD "").length > 50 && strTruthy item.summary then 30 else 0) +
  (if item.gdeltTone.isSome then 20 else 0) -
  min ((now - item.timestamp) / (1000 * 60)) 1000

/-- First occurrence order deduplication, the JS `[...new Set(xs)]`. -/
def eraseDupsFirst : List String → List String
  | [] => []
  | x :: xs => x :: eraseDupsFirst (xs.filter (fun y => y ≠ x))
termination_by l => l.length
decreasing_by
  simp only [List.length_cons]
  exact Nat.lt_succ_of_le (List.length_filter_le _ _)

/-- Head of the stable descending quality sort: the first group member
attaining the maximal quality score. -/
def pickCanonical (now : ℚ) (first : RawNewsItem) (rest : List RawNewsItem) :
    RawNewsItem :=
  rest.foldl (fun best c =>
    if qualityScore now c > qualityScore now best then c else best) first

/-- `DeduplicationService.mergeGroup`: canonical member plus attribute
backfill from the rest of the group, with distinct source names and urls. -/
def mergeGroup (now : ℚ) (group : List RawNewsItem) : MergedEvent :=
  match group with
  | [] => ⟨⟨"", none, "", 0, "", none, none, none, []⟩, [], [], 0⟩
  | first :: rest =>
    let g := first :: rest
    let canonical := pickCanonical now first rest
    let sources := eraseDupsFirst (g.map (·.source))
    let sourceUrls := eraseDupsFirst (g.map (·.url))
    let bestLocation := g.foldl (fun bl item =>
      if !latTruthy bl && latDefined item then item.location else bl)
      canonical.location
    let bestImageUrl := g.foldl (fun bi item =>
      if !strTruthy bi && strTruthy item.imageUrl then item.imageUrl else bi)
      canonical.imageUrl
    let bestSummary := g.foldl (fun bs item =>
      if strTruthy item.summary &&
          (!strTruthy bs || (item.summary.getD "").length > (bs.getD "").length)
      then item.summary else bs) canonical.summary
    let tone := g.foldl (fun gt item =>
      if gt == none && item.gdeltTone.isSome then item.gdeltTone else gt)
      canonical.gdeltTone
    { canonicalItem :=
        { canonical with
          location := bestLocation
          imageUrl := bestImageUrl
          summary := bestSummary
          gdeltTone := tone }
      sources := sources
      sourceUrls := sourceUrls
      sourceCount := sources.length }

/-- `DeduplicationService.deduplicate`: group then merge each group. -/
noncomputable def deduplicate (cfg : DedupConfig) (now : ℚ)
    (items : List RawNewsItem) : List MergedEvent :=
  (dedupGroups cfg items).map (mergeGroup now)

/-! ## Conversion and persistence
(src/unnamed/part_007 convertToNewsEvents, src/unnamed/part_005
aggregateNews, src/server/src/db/eventRepository.ts insertEvents) -/

structure NewsEvent where
  id : String
  title : String
  summary : String
  lat : ℚ
  lng : ℚ
  timestamp : ℚ
  source : String
  category : EventCategory
  intensity : ℤ
  url : String
  imageUrl : Option String
  gdeltTone : Option ℚ
  sourceCount : ℕ
deriving Repr, DecidableEq

/-- `item.location?.lat || 0`: 0 when the location or the coordinate is
absent (and 0 stays 0). -/
def latOrZero (i : RawNewsItem) : ℚ :=
  match i.location with
  | some l => l.lat.getD 0
  | none => 0

def lngOrZero (i : RawNewsItem) : ℚ :=
  match i.location with
  | some l => l.lng.getD 0
  | none => 0

/-- `DeduplicationService.convertToNewsEvents`; `ids k` models the
`uuidv4()` drawn for the k-th merged event of this run. -/
def convertToNewsEvents (ids : ℕ → String) (merged : List MergedEvent)
    (classifyFn : RawNewsItem → EventCategory)
    (intensityFn : MergedEvent → ℤ) : List NewsEvent :=
  merged.enum.map (fun (k, m) =>
    let item := m.canonicalItem
    { id := ids k
      title := item.title
      summary := item.summary.getD ""
      lat := latOrZero item
      lng := lngOrZero item
      timestamp := item.timestamp
      source := String.intercalate ", " m.sources
      category := classifyFn item
      intensity := intensityFn m
      url := item.url
      imageUrl := item.imageUrl
      gdeltTone := item.gdeltTone
      sourceCount := m.sourceCount })

/-- Step 5 of `NewsAggregatorService.aggregateNews`: keep only events
with `lat !== 0 && lng !== 0`. -/
def filterValidEvents (evs : List NewsEvent) : List NewsEvent :=
  evs.filter (fun e => e.lat ≠ 0 && e.lng ≠ 0)

/-- A persisted row of the `events` table (columns used by the upsert). -/
structure EventRow where
  id : String
  title : String
  summary : String
  lat : ℚ
  lng : ℚ
  intensity : ℤ
  sourceCount : ℕ
deriving Repr, DecidableEq

/-- One `INSERT ... ON CONFLICT (id) DO UPDATE` of `insertEvents`: on an
id conflict, `intensity = GREATEST(old, new)` and
`source_count = old + 1`; otherwise insert with
`source_count = event.sourceCount || 1`. -/
def upsertRow (st : List EventRow) (e : NewsEvent) : List EventRow :=
  if st.any (fun r => r.id == e.id) then
    st.map (fun r =>
      if r.id == e.id then
        { r with
          title := e.title
          summary := e.summary
          intensity := max r.intensity e.intensity
          sourceCount := r.sourceCount + 1 }
      else r)
  else
    st ++ [{ id := e.id, title := e.title, summary := e.summary,
             lat := e.lat, lng := e.lng, intensity := e.intensity,
             sourceCount := if e.sourceCount = 0 then 1 else e.sourceCount }]

/-- `insertEvents`: upsert the batch in order. -/
def insertEventRows (st : List EventRow) (evs : List NewsEvent) : List EventRow :=
  evs.foldl upsertRow st

/-- Steps 4-5 of `aggregateNews` applied to a deduplicated batch. -/
noncomputable def pipelineEvents (ids : ℕ → String)
    (wm : String → String → ℕ) (now : ℚ) (cfg : DedupConfig)
    (items : List RawNewsItem) : List NewsEvent :=
  filterValidEvents (convertToNewsEvents ids (deduplicate cfg now items)
    (fun item => classify wm item)
    (fun m => calculateIntensity wm now m (classify wm m.canonicalItem)))

/-- One full aggregation pass (steps 2, 4, 5, 6 of `aggregateNews`; the
geocoding stage 3 only touches groups whose canonical item lacks
coordinates and is a no-op for the coordinate-bearing batches studied
here). -/
noncomputable def runAggregation (ids : ℕ → String)
    (wm : String → String → ℕ) (now : ℚ) (cfg : DedupConfig)
    (items : List RawNewsItem) (st : List EventRow) : List EventRow :=
  insertEventRows st (pipelineEvents ids wm now cfg items)

/-! ## Theorems -/

/-- C10: with a round-tripping serializer, `set` then `get` returns every
non-null value; a stored JS `null` serializes to a string that parses back
to `null`, so `get` cannot distinguish it from a miss and `getOrSet`
re-runs its compute function whenever the cached computation produced
`null`. -/
theorem cache_set_get_roundtrip_null_blind {β : Type}
    (parse : String → Option β) (stringify : Option β → String)
    (st : CacheStore) (key : String)
    (hrt : ∀ v, parse (stringify v) = v)
    (hne : ∀ v, stringify v ≠ "") :
    (∀ b : β, cacheGet parse (cacheSet stringify st key (some b)) key = some b) ∧
    cacheGet parse (cacheSet stringify st key none) key =
      cacheGet parse CacheStore.empty key ∧
    ∀ fetchFn : Unit → Option β,
      (cacheGetOrSet parse stringify (cacheSet stringify st key none) key
        fetchFn).2.2 = true := by
  have hget : ∀ v, cacheGet parse (cacheSet stringify st key v) key = v := by
    intro v
    simp only [cacheGet, cacheSet, if_true, if_neg (hne v), hrt]
  refine ⟨fun b => hget (some b), ?_, fun fetchFn => ?_⟩
  · rw [hget none]; rfl
  · simp only [cacheGetOrSet, hget none]

/-- C10 witness: a concrete round-tripping serializer over `Bool`. -/
theorem cache_set_get_roundtrip_null_blind_witness :
    (∀ b : Bool,
      cacheGet (fun s => if s = "t" then some true else
          if s = "f" then some false else none)
        (cacheSet (fun v => match v with
          | some true => "t" | some false => "f" | none => "null")
          CacheStore.empty "k" (some b)) "k" = some b) ∧
    cacheGet (fun s => if s = "t" then some true else
        if s = "f" then some false else none)
      (cacheSet (fun v => match v with
        | some true => "t" | some false => "f" | none => "null")
        CacheStore.empty "k" none) "k" =
      cacheGet (fun s => if s = "t" then some true else
        if s = "f" then some false else none) CacheStore.empty "k" ∧
    ∀ fetchFn : Unit → Option Bool,
      (cacheGetOrSet (fun s => if s = "t" then some true else
          if s = "f" then some false else none)
        (fun v => match v with
          | some true => "t" | some false => "f" | none => "null")
        (cacheSet (fun v => match v with
          | some true => "t" | some false => "f" | none => "null")
          CacheStore.empty "k" none) "k" fetchFn).2.2 = true :=
  cache_set_get_roundtrip_null_blind
    (fun s => if s = "t" then some true else if s = "f" then some false else none)
    (fun v => match v with
      | some true => "t" | some false => "f" | none => "null")
    CacheStore.empty "k" (by decide) (by decide)

/-- The raw intensity is a sum of nonnegative parts times a nonnegative
category multiplier, hence nonnegative. -/
theorem rawIntensity_nonneg (wm : String → String → ℕ) (now : ℚ)
    (event : MergedEvent) (category : EventCategory) :
    0 ≤ rawIntensity wm now event category := by
  unfold rawIntensity
  have hsrc : (0:ℚ) ≤ min (event.sourceCount : ℚ) 10 * sourceCountWeight := by
    apply mul_nonneg
    · exact le_min (by positivity) (by norm_num)
    · norm_num [sourceCountWeight]
  have htone : (0:ℚ) ≤ match event.canonicalItem.gdeltTone with
      | some t => |t| * toneWeight
      | none => 0 := by
    cases event.canonicalItem.gdeltTone with
    | some t => exact mul_nonneg (abs_nonneg t) (by norm_num [toneWeight])
    | none => exact le_refl 0
  have hkw : (0:ℚ) ≤ analyzeKeywords wm event.canonicalItem := by
    unfold analyzeKeywords
    refine le_min ?_ (by norm_num)
    apply List.sum_nonneg
    intro x hx
    rw [List.mem_map] at hx
    obtain ⟨p, hp, rfl⟩ := hx
    have hw : (0:ℚ) ≤ p.2 := by
      revert hp
      have : ∀ q ∈ INTENSITY_KEYWORDS, (0:ℚ) ≤ q.2 := by decide
      exact this p
    positivity
  have hrec : (0:ℚ) ≤ calculateRecencyBonus now event.canonicalItem.timestamp := by
    unfold calculateRecencyBonus
    dsimp only
    split
    · exact le_refl 0
    · split
      · norm_num
      · split
        · rename_i h1 h2 h3
          have : (now - event.canonicalItem.timestamp) / (1000 * 60 * 60) /
              recencyDecayHours ≤ 1 := by
            rw [div_le_one (by norm_num [recencyDecayHours])]
            exact h3
          nlinarith
        · exact le_refl 0
  have hmul : (0:ℚ) ≤ categoryMultiplier category := by
    cases category <;> norm_num [categoryMultiplier]
  have hsum : (0:ℚ) ≤ min (event.sourceCount : ℚ) 10 * sourceCountWeight +
      (match event.canonicalItem.gdeltTone with
        | some t => |t| * toneWeight
        | none => 0) +
      analyzeKeywords wm event.canonicalItem +
      calculateRecencyBonus now event.canonicalItem.timestamp := by linarith
  exact mul_nonneg hsum hmul

/-- C2: `calculateIntensity` always returns an integer in `[0, 100]`,
and it equals `round(100 * raw / maxExpected)` clamped to `[0, 100]`
(the `min 100` of the code alone suffices because the raw score is never
negative). -/
theorem intensity_clamped_formula (wm : String → String → ℕ) (now : ℚ)
    (event : MergedEvent) (category : EventCategory) :
    calculateIntensity wm now event category =
      max 0 (min 100 (jsRound (100 * rawIntensity wm now event category / 150))) ∧
    0 ≤ calculateIntensity wm now event category ∧
    calculateIntensity wm now event category ≤ 100 := by
  have hraw := rawIntensity_nonneg wm now event category
  have harg : rawIntensity wm now event category / 150 * 100 =
      100 * rawIntensity wm now event category / 150 := by ring
  have hround : 0 ≤ jsRound (100 * rawIntensity wm now event category / 150) := by
    unfold jsRound
    apply Int.floor_nonneg.mpr
    positivity
  have hmin : 0 ≤ min 100 (jsRound (100 * rawIntensity wm now event category / 150)) :=
    le_min (by norm_num) hround
  refine ⟨?_, ?_, ?_⟩
  · unfold calculateIntensity
    rw [harg, max_eq_right hmin]
  · unfold calculateIntensity
    rw [harg]
    exact hmin
  · unfold calculateIntensity
    exact min_le_left _ _

/-- C4: an event produced by the conversion step survives to persistence
exactly when both `lat` and `lng` are nonzero — the `(0,0)` sentinel is
dropped, and so is any event with `lat = 0` or `lng = 0` alone. -/
theorem persisted_iff_both_coords_nonzero (ids : ℕ → String)
    (wm : String → String → ℕ) (now : ℚ) (cfg : DedupConfig)
    (items : List RawNewsItem) (e : NewsEvent) :
    e ∈ pipelineEvents ids wm now cfg items ↔
      e ∈ convertToNewsEvents ids (deduplicate cfg now items)
          (fun item => classify wm item)
          (fun m => calculateIntensity wm now m (classify wm m.canonicalItem)) ∧
        e.lat ≠ 0 ∧ e.lng ≠ 0 := by
  unfold pipelineEvents filterValidEvents
  rw [List.mem_filter]
  simp only [Bool.and_eq_true, decide_eq_true_eq, and_assoc]

/-- `refill` never pushes the token count above `maxTokens`. -/
theorem refill_tokens_le (s : RLState) (maxT : ℤ) (rate now : ℚ)
    (h : s.tokens ≤ maxT) : (s.refill maxT rate now).tokens ≤ maxT := by
  unfold RLState.refill
  dsimp only
  split
  · exact min_le_left _ _
  · exact h

/-- `refill` never removes tokens (given the cap invariant). -/
theorem refill_tokens_ge (s : RLState) (maxT : ℤ) (rate now : ℚ)
    (h : s.tokens ≤ maxT) : s.tokens ≤ (s.refill maxT rate now).tokens := by
  unfold RLState.refill
  dsimp only
  split
  · rename_i hpos
    exact le_min h (by omega)
  · exact le_refl _

/-- While at least as many tokens remain as calls, every call is
admitted immediately. -/
theorem run_immediate (N : ℤ) (rate : ℚ) :
    ∀ (ts : List ℚ) (s : RLState), (ts.length : ℤ) ≤ s.tokens →
      s.tokens ≤ N → ∀ d ∈ (s.run N rate ts).2, d = 0 := by
  intro ts
  induction ts with
  | nil => intro s _ _ d hd; simp [RLState.run] at hd
  | cons t ts ih =>
    intro s hlen hle d hd
    have hge := refill_tokens_ge s N rate t hle
    have hcap := refill_tokens_le s N rate t hle
    have hpos : 0 < (s.refill N rate t).tokens := by
      have : (1 : ℤ) ≤ (ts.length : ℤ) + 1 := by omega
      simp only [List.length_cons] at hlen
      push_cast at hlen
      omega
    simp only [RLState.run, RLState.acquire] at hd
    rw [if_pos hpos] at hd
    simp only [List.mem_cons] at hd
    rcases hd with rfl | hd
    · rfl
    · refine ih _ ?_ ?_ d hd
      · simp only [List.length_cons] at hlen
        push_cast at hlen
        simp only []
        omega
      · simp only []
        omega

/-- C6 (amended): with `maxTokens ≥ 1` and a positive window, (i) any
first `maxTokens` acquisitions from a fresh limiter are admitted
immediately, (ii) an `acquire` arriving no earlier than the last refill
is delayed at most — not at least — the refill interval, so an excess
call always completes after a bounded wait instead of being rejected,
and (iii) an excess call arriving exactly at the last refill instant
(back-to-back saturation) waits exactly the refill interval. -/
theorem rateLimiter_bounded_wait (N : ℤ) (W : ℚ) (hN : 1 ≤ N) (hW : 0 < W) :
    (∀ (t0 : ℚ) (ts : List ℚ), (ts.length : ℤ) ≤ N →
      ∀ d ∈ ((RLState.init N t0).run N (refillRate N W) ts).2, d = 0) ∧
    (∀ (s : RLState) (now : ℚ), s.lastRefill ≤ now →
      (s.acquire N (refillRate N W) now).2 ≤ refillRate N W) ∧
    (∀ (s : RLState) (now : ℚ), s.tokens = 0 → s.lastRefill = now →
      (s.acquire N (refillRate N W) now).2 = refillRate N W) := by
  have hrate : 0 < refillRate N W := by
    unfold refillRate
    apply div_pos hW
    exact_mod_cast lt_of_lt_of_le one_pos (by exact_mod_cast hN)
  refine ⟨?_, ?_, ?_⟩
  · intro t0 ts hlen d hd
    exact run_immediate N (refillRate N W) ts (RLState.init N t0) hlen (le_refl N) d hd
  · intro s now hlr
    unfold RLState.acquire
    dsimp only
    split
    · exact le_of_lt hrate
    · have hlr2 : (s.refill N (refillRate N W) now).lastRefill ≤ now := by
        unfold RLState.refill
        dsimp only
        split
        · exact le_refl now
        · exact hlr
      apply max_le (le_of_lt hrate)
      linarith
  · intro s now htok hlr
    have hre : s.refill N (refillRate N W) now = s := by
      unfold RLState.refill
      dsimp only
      rw [hlr]
      simp
    unfold RLState.acquire
    dsimp only
    rw [hre, htok, hlr]
    rw [if_neg (by omega)]
    simp only [sub_self, sub_zero]
    exact max_eq_right (le_of_lt hrate)

/-- C6 witness: `maxTokens = 2`, `windowMs = 1000`; two calls at `t = 0`
are immediate, and a saturated limiter re-polled at its refill instant
waits the full 500 ms interval. -/
theorem rateLimiter_bounded_wait_witness :
    (∀ d ∈ ((RLState.init 2 0).run 2 (refillRate 2 1000) [0, 0]).2, d = 0) ∧
    ((RLState.mk 0 250).acquire 2 (refillRate 2 1000) 300).2 ≤ refillRate 2 1000 ∧
    ((RLState.mk 0 300).acquire 2 (refillRate 2 1000) 300).2 = refillRate 2 1000 := by
  obtain ⟨h1, h2, h3⟩ := rateLimiter_bounded_wait 2 1000 (by norm_num) (by norm_num)
  exact ⟨h1 0 [0, 0] (by norm_num), h2 (RLState.mk 0 250) 300 (by norm_num),
    h3 (RLState.mk 0 300) 300 rfl rfl⟩

/-- C6 counterexample: three calls at times 0, 0, 250 against a
`RateLimiter(2, 1000)` (refill interval 500 ms) all lie inside one
window; the third (excess) call is delayed only 250 ms, strictly less
than the refill interval the claim promises as a lower bound. -/
theorem rateLimiter_excess_delay_below_interval :
    ((RLState.init 2 0).run 2 (refillRate 2 1000) [0, 0, 250]).2 = [0, 0, 250] ∧
    (250 : ℚ) < 1000 ∧ (250 : ℚ) < refillRate 2 1000 := by
  refine ⟨?_, by norm_num, by norm_num [refillRate]⟩
  norm_num [RLState.run, RLState.acquire, RLState.refill, RLState.init, refillRate]

/-- Every backoff delay produced by the retry loop is capped by `maxD`. -/
theorem retryGo_delay_le {ε α : Type} (op : ℕ → Except ε α) (sr : ε → Bool)
    (base maxD : ℚ) (jitter : ℕ → ℚ) :
    ∀ (r k : ℕ), ∀ d ∈ (retryGo op sr base maxD jitter r k).2, d ≤ maxD := by
  intro r
  induction r with
  | zero =>
    intro k d hd
    simp only [retryGo] at hd
    cases hop : op k with
    | ok a => simp only [hop] at hd; simp at hd
    | error e => simp only [hop] at hd; simp at hd
  | succ r ih =>
    intro k d hd
    simp only [retryGo] at hd
    cases hop : op k with
    | ok a => simp only [hop] at hd; simp at hd
    | error e =>
      simp only [hop] at hd
      by_cases hsr : sr e = true
      · simp only [hsr, if_true, List.mem_cons] at hd
        rcases hd with rfl | hd
        · exact min_le_right _ _
        · exact ih (k + 1) d hd
      · simp only [hsr] at hd
        simp at hd

/-- Characterization of the failure outcome of the retry loop, relative to a
start attempt `k` with `r` retries left. -/
theorem retryGo_error_iff {ε α : Type} (op : ℕ → Except ε α) (sr : ε → Bool)
    (base maxD : ℚ) (jitter : ℕ → ℚ) :
    ∀ (r k : ℕ) (e : ε),
      (retryGo op sr base maxD jitter r k).1 = .error e ↔
      ∃ m, m ≤ r ∧ (∀ j < m, ∃ e2, op (k + j) = .error e2 ∧ sr e2 = true) ∧
        op (k + m) = .error e ∧ (m = r ∨ sr e = false) ∧
        (retryGo op sr base maxD jitter r k).2.length = m := by
  intro r
  induction r with
  | zero =>
    intro k e
    simp only [retryGo]
    cases hop : op k with
    | ok a =>
      simp only [hop]
      constructor
      · intro h; exact absurd h (by simp)
      · rintro ⟨m, hm, _, hope, _, _⟩
        interval_cases m
        rw [Nat.add_zero, hop] at hope
        exact absurd hope (by simp)
    | error e0 =>
      simp only [hop, List.length_nil]
      constructor
      · intro h
        have he : e0 = e := by simpa using h
        exact ⟨0, le_refl 0, by omega, by simpa [he] using hop, Or.inl rfl, rfl⟩
      · rintro ⟨m, hm, _, hope, _, hlen⟩
        interval_cases m
        rw [Nat.add_zero, hop] at hope
        simpa using hope
  | succ r ih =>
    intro k e
    simp only [retryGo]
    cases hop : op k with
    | ok a =>
      simp only [hop]
      constructor
      · intro h; exact absurd h (by simp)
      · rintro ⟨m, hm, hall, hope, _, _⟩
        cases m with
        | zero =>
          rw [Nat.add_zero, hop] at hope
          exact absurd hope (by simp)
        | succ m =>
          obtain ⟨e2, hj, _⟩ := hall 0 (Nat.succ_pos m)
          rw [Nat.add_zero, hop] at hj
          exact absurd hj (by simp)
    | error e0 =>
      simp only [hop]
      by_cases hsr : sr e0 = true
      · simp only [hsr, if_true, List.length_cons]
        constructor
        · intro h
          obtain ⟨m, hm, hall, hope, hstop, hlen⟩ := (ih (k + 1) e).mp h
          refine ⟨m + 1, by omega, ?_, ?_, ?_, by omega⟩
          · intro j hj
            cases j with
            | zero => exact ⟨e0, by simpa using hop, hsr⟩
            | succ j =>
              have := hall j (by omega)
              rwa [show k + 1 + j = k + (j + 1) by omega] at this
          · rwa [show k + 1 + m = k + (m + 1) by omega] at hope
          · rcases hstop with h1 | h2
            · exact Or.inl (by omega)
            · exact Or.inr h2
        · rintro ⟨m, hm, hall, hope, hstop, hlen⟩
          cases m with
          | zero => omega
          | succ m =>
            apply (ih (k + 1) e).mpr
            refine ⟨m, by omega, ?_, ?_, ?_, by omega⟩
            · intro j hj
              have := hall (j + 1) (by omega)
              rwa [show k + (j + 1) = k + 1 + j by omega] at this
            · rwa [show k + (m + 1) = k + 1 + m by omega] at hope
            · rcases hstop with h1 | h2
              · exact Or.inl (by omega)
              · exact Or.inr h2
      · simp only [hsr, if_false, List.length_nil, Bool.false_eq_true]
        constructor
        · intro h
          have he : e0 = e := by simpa using h
          subst he
          exact ⟨0, by omega, by omega, by simpa using hop,
            Or.inr (by simpa using hsr), rfl⟩
        · rintro ⟨m, hm, hall, hope, _, hlen⟩
          have hm0 : m = 0 := by simpa using hlen.symm
          subst hm0
          rw [Nat.add_zero, hop] at hope
          simpa using hope

/-- C7: `withRetry` fails exactly when there is a stopping attempt `m`
such that every earlier attempt failed with a retryable error and attempt
`m` failed with either the retry budget exhausted (`m = maxRetries`) or a
non-retryable error (so a non-retryable first failure propagates
immediately: exactly `m` backoff sleeps happen, none after the stopping
failure); the surfaced error is the error of attempt `m` unchanged, and every
exponential-backoff delay is at most `maxDelayMs`. -/
theorem withRetry_throws_iff_and_bounded {ε α : Type} (op : ℕ → Except ε α)
    (sr : ε → Bool) (opts : RetryOptions) (jitter : ℕ → ℚ) :
    (∀ d ∈ (withRetry op sr opts jitter).2, d ≤ opts.maxDelayMs) ∧
    (∀ e : ε, (withRetry op sr opts jitter).1 = .error e ↔
      ∃ m, m ≤ opts.maxRetries ∧
        (∀ j < m, ∃ e2, op j = .error e2 ∧ sr e2 = true) ∧
        op m = .error e ∧ (m = opts.maxRetries ∨ sr e = false) ∧
        (withRetry op sr opts jitter).2.length = m) := by
  constructor
  · intro d hd
    exact retryGo_delay_le op sr opts.baseDelayMs opts.maxDelayMs jitter
      opts.maxRetries 0 d hd
  · intro e
    have := retryGo_error_iff op sr opts.baseDelayMs opts.maxDelayMs jitter
      opts.maxRetries 0 e
    simpa only [Nat.zero_add] using this

/-- The accumulator step of the strict-max scan of the classifier. -/
def stepMax {α : Type} (f : α → ℚ) (acc : α × ℚ) (c : α) : α × ℚ :=
  if f c > acc.2 then (c, f c) else acc

theorem classifyFold_eq_foldl (f : EventCategory → ℚ) :
    classifyFold f = CATEGORY_ORDER.foldl (stepMax f) (.politics, 0) := rfl

/-- The running maximum of the strict-max scan never decreases below the
initial score. -/
theorem le_foldl_max {α : Type} (f : α → ℚ) : ∀ (l : List α) (b : α) (s : ℚ),
    s ≤ (l.foldl (stepMax f) (b, s)).2 := by
  intro l
  induction l with
  | nil => intro b s; exact le_refl s
  | cons c l ih =>
    intro b s
    simp only [List.foldl_cons, stepMax]
    by_cases h : f c > s
    · simp only [if_pos h]
      exact le_of_lt (lt_of_lt_of_le h (ih c (f c)))
    · simp only [if_neg h]
      exact ih b s

/-- The strict-max scan bounds every scanned score, keeps the seed while
nothing exceeds the initial score, and otherwise lands on the first list
element attaining the final maximum. -/
theorem foldl_max_spec {α : Type} (f : α → ℚ) : ∀ (l : List α) (b : α) (s : ℚ),
    (∀ c ∈ l, f c ≤ (l.foldl (stepMax f) (b, s)).2) ∧
    ((l.foldl (stepMax f) (b, s)).2 = s → (l.foldl (stepMax f) (b, s)).1 = b) ∧
    (s < (l.foldl (stepMax f) (b, s)).2 →
      l.find? (fun c => decide (f c = (l.foldl (stepMax f) (b, s)).2)) =
        some (l.foldl (stepMax f) (b, s)).1) := by
  intro l
  induction l with
  | nil =>
    intro b s
    refine ⟨by simp, fun _ => rfl, fun h => absurd h (lt_irrefl s)⟩
  | cons c l ih =>
    intro b s
    simp only [List.foldl_cons, stepMax]
    by_cases h : f c > s
    · simp only [if_pos h]
      obtain ⟨ih1, ih2, ih3⟩ := ih c (f c)
      have hfc : f c ≤ (l.foldl (stepMax f) (c, f c)).2 := le_foldl_max f l c (f c)
      refine ⟨?_, ?_, ?_⟩
      · intro x hx
        rcases List.mem_cons.mp hx with rfl | hx
        · exact hfc
        · exact ih1 x hx
      · intro heq
        exact absurd h (not_lt.mpr (heq ▸ hfc))
      · intro _
        rcases eq_or_lt_of_le hfc with heq | hlt
        · rw [List.find?_cons_of_pos _ (by simpa using heq)]
          rw [ih2 heq.symm]
        · rw [List.find?_cons_of_neg _ (by simp; exact ne_of_lt hlt)]
          exact ih3 hlt
    · simp only [if_neg h]
      obtain ⟨ih1, ih2, ih3⟩ := ih b s
      refine ⟨?_, ih2, ?_⟩
      · intro x hx
        rcases List.mem_cons.mp hx with rfl | hx
        · exact le_trans (le_of_not_lt h) (le_foldl_max f l b s)
        · exact ih1 x hx
      · intro hlt
        have hne : f c ≠ (l.foldl (stepMax f) (b, s)).2 :=
          ne_of_lt (lt_of_le_of_lt (le_of_not_lt h) hlt)
        rw [List.find?_cons_of_neg _ (by simpa using hne)]
        exact ih3 hlt

/-- C5: the classifier depends only on title, summary, themes, tone and
source — the same five fields always yield the same category, also in the
all-zero-score case where the source-name fallback decides; the returned
maximum bounds the score of every category; and whenever the maximal
accumulated score is positive the returned category is the first category
in declaration order attaining that maximum (the documented tie-break). -/
theorem classifier_deterministic_and_first_max (wm : String → String → ℕ)
    (i j : RawNewsItem) (h1 : i.title = j.title) (h2 : i.summary = j.summary)
    (h3 : i.themes = j.themes) (h4 : i.gdeltTone = j.gdeltTone)
    (h5 : i.source = j.source) :
    classify wm i = classify wm j ∧
    (∀ c ∈ CATEGORY_ORDER,
      scoresOf wm i c ≤ (classifyFold (scoresOf wm i)).2) ∧
    (0 < (classifyFold (scoresOf wm i)).2 →
      CATEGORY_ORDER.find?
          (fun c => decide (scoresOf wm i c = (classifyFold (scoresOf wm i)).2)) =
        some (classify wm i)) := by
  have hs : scoresOf wm i = scoresOf wm j := by
    funext c
    unfold scoresOf themeScoreOf keywordScoreOf toneScoreOf itemText
    rw [h1, h2, h3, h4]
  have hdet : classify wm i = classify wm j := by
    unfold classify
    rw [hs, h5]
  obtain ⟨hb, _, hfind⟩ :=
    foldl_max_spec (scoresOf wm i) CATEGORY_ORDER EventCategory.politics 0
  refine ⟨hdet, ?_, ?_⟩
  · intro c hc
    rw [classifyFold_eq_foldl]
    exact hb c hc
  · intro hpos
    have hcl : classify wm i = (classifyFold (scoresOf wm i)).1 := by
      unfold classify
      rw [if_neg (ne_of_gt hpos)]
    rw [hcl, classifyFold_eq_foldl]
    rw [classifyFold_eq_foldl] at hpos
    exact hfind hpos

/-- Concrete classifier inputs: two items equal on all classifier-visible
fields but with different urls and timestamps. -/
def warItemA : RawNewsItem :=
  { title := "war", summary := none, url := "u", timestamp := 0,
    source := "s", imageUrl := none, location := none, gdeltTone := none,
    themes := [] }

def warItemB : RawNewsItem :=
  { title := "war", summary := none, url := "v", timestamp := 99,
    source := "s", imageUrl := none, location := none, gdeltTone := none,
    themes := [] }

/-- A concrete regex-count oracle: one whole-word hit for `war`. -/
def wmWar : String → String → ℕ := fun _ kw => if kw = "war" then 1 else 0

/-- C5 witness. -/
theorem classifier_deterministic_and_first_max_witness :
    classify wmWar warItemA = classify wmWar warItemB ∧
    (∀ c ∈ CATEGORY_ORDER,
      scoresOf wmWar warItemA c ≤ (classifyFold (scoresOf wmWar warItemA)).2) ∧
    (0 < (classifyFold (scoresOf wmWar warItemA)).2 →
      CATEGORY_ORDER.find?
          (fun c => decide (scoresOf wmWar warItemA c =
            (classifyFold (scoresOf wmWar warItemA)).2)) =
        some (classify wmWar warItemA)) :=
  classifier_deterministic_and_first_max wmWar warItemA warItemB
    rfl rfl rfl rfl rfl

/-- No two candidates of the list share the same `(lat, lng)` pair. -/
def coordsDistinct (l : List ExtractedLocation) : Prop :=
  l.Pairwise (fun a b => ¬(a.lat = b.lat ∧ a.lng = b.lng))

/-- A pattern-table entry that matches every question and carries one
location at `(1, 2)`. -/
def dupPattern : PatternEntry :=
  { test := fun _ => true, locs := [("X", 1, 2, 1)] }

/-- C9 counterexample: two matching patterns that share a coordinate are
appended wholesale by `extractLocations`, so the returned candidate list
contains two locations with the same `(lat, lng)` pair — pattern-layer
results are not deduplicated by coordinate equality. -/
theorem extractLocations_duplicate_coords :
    ¬ coordsDistinct (extractLocations [dupPattern, dupPattern] [] []
        (fun _ => []) "q").locations := by
  unfold coordsDistinct
  decide

/-- `pushIfNewCoord` preserves coordinate-distinctness. -/
theorem pushIfNewCoord_preserves (toAdd : List ExtractedLocation) :
    ∀ acc, coordsDistinct acc → coordsDistinct (pushIfNewCoord acc toAdd) := by
  induction toAdd with
  | nil => intro acc h; exact h
  | cons loc rest ih =>
    intro acc h
    unfold pushIfNewCoord
    rw [List.foldl_cons]
    by_cases hany :
        acc.any (fun l => l.lat == loc.lat && l.lng == loc.lng) = true
    · rw [if_pos hany]
      exact ih acc h
    · rw [if_neg hany]
      apply ih
      unfold coordsDistinct
      rw [List.pairwise_append]
      refine ⟨h, List.pairwise_singleton _ _, ?_⟩
      intro a ha b hb
      have hb' : b = loc := by simpa using hb
      subst hb'
      intro ⟨hlat, hlng⟩
      apply hany
      rw [List.any_eq_true]
      exact ⟨a, ha, by simp [hlat, hlng]⟩

/-- C9 (amended): the organization and NLP layers are appended under the
coordinate-equality guard, so the extraction output is free of duplicate
coordinates whenever the own candidates of the pattern layer are — the guard
protects everything except duplicates inside the pattern layer itself. -/
theorem extractLocations_dedup_after_patterns (pats : List PatternEntry)
    (orgs : List OrgEntry) (cents : List CentroidEntry)
    (places : String → List String) (question : String)
    (h : coordsDistinct (matchPatterns pats question)) :
    coordsDistinct (extractLocations pats orgs cents places question).locations := by
  unfold extractLocations
  exact pushIfNewCoord_preserves _ _ (pushIfNewCoord_preserves _ _ h)

/-- C9 witness: with empty tables the pattern layer is empty, hence
coordinate-distinct, and so is the full output. -/
theorem extractLocations_dedup_after_patterns_witness :
    coordsDistinct (extractLocations [] [] [] (fun _ => []) "q").locations :=
  extractLocations_dedup_after_patterns [] [] [] (fun _ => []) "q"
    (by unfold coordsDistinct matchPatterns; simp)

theorem dedupGroups_nil (cfg : DedupConfig) : dedupGroups cfg [] = [] := by
  rw [dedupGroups]

open Classical in
theorem dedupGroups_cons (cfg : DedupConfig) (x : RawNewsItem)
    (rest : List RawNewsItem) :
    dedupGroups cfg (x :: rest) =
      (x :: rest.filter (fun y => decide (areSimilar cfg x y))) ::
        dedupGroups cfg (rest.filter (fun y => !decide (areSimilar cfg x y))) := by
  rw [dedupGroups]

open Classical in
/-- The concatenation of the greedy groups is a permutation of the input:
every raw item lands in exactly one group. -/
theorem dedupGroups_join_perm (cfg : DedupConfig) :
    ∀ (items : List RawNewsItem), ((dedupGroups cfg items).flatten).Perm items := by
  have main : ∀ (n : ℕ) (items : List RawNewsItem), items.length ≤ n →
      ((dedupGroups cfg items).flatten).Perm items := by
    intro n
    induction n with
    | zero =>
      intro items hlen
      rw [List.length_eq_zero.mp (Nat.le_zero.mp hlen)]
      rw [dedupGroups_nil]
      exact List.Perm.refl _
    | succ n ih =>
      intro items hlen
      cases items with
      | nil => rw [dedupGroups_nil]; exact List.Perm.refl _
      | cons x rest =>
        rw [dedupGroups_cons]
        rw [List.flatten]
        have hrec := ih (rest.filter (fun y => !decide (areSimilar cfg x y)))
          (le_trans (List.length_filter_le _ _) (by simpa using hlen))
        exact List.Perm.trans (List.Perm.append_left _ hrec)
          (List.Perm.cons x (List.filter_append_perm _ rest))
  intro items
  exact main items.length items (le_refl _)

open Classical in
/-- Every greedy group consists of a seed followed by items each similar
to that seed. -/
theorem dedupGroups_seed_similar (cfg : DedupConfig) :
    ∀ (items : List RawNewsItem) (g : List RawNewsItem),
      g ∈ dedupGroups cfg items →
      ∃ x t, g = x :: t ∧ ∀ y ∈ t, areSimilar cfg x y := by
  have main : ∀ (n : ℕ) (items : List RawNewsItem), items.length ≤ n →
      ∀ g ∈ dedupGroups cfg items,
        ∃ x t, g = x :: t ∧ ∀ y ∈ t, areSimilar cfg x y := by
    intro n
    induction n with
    | zero =>
      intro items hlen g hg
      rw [List.length_eq_zero.mp (Nat.le_zero.mp hlen), dedupGroups_nil] at hg
      exact absurd hg (List.not_mem_nil g)
    | succ n ih =>
      intro items hlen g hg
      cases items with
      | nil => rw [dedupGroups_nil] at hg; exact absurd hg (List.not_mem_nil g)
      | cons x rest =>
        rw [dedupGroups_cons] at hg
        rcases List.mem_cons.mp hg with rfl | hg
        · refine ⟨x, _, rfl, ?_⟩
          intro y hy
          have := List.of_mem_filter hy
          exact of_decide_eq_true this
        · exact ih (rest.filter (fun y => !decide (areSimilar cfg x y)))
            (le_trans (List.length_filter_le _ _) (by simpa using hlen)) g hg
  intro items
  exact main items.length items (le_refl _)

/-- `eraseDupsFirst` keeps exactly one representative per distinct
element. -/
theorem eraseDupsFirst_length_card :
    ∀ (l : List String), (eraseDupsFirst l).length = l.toFinset.card := by
  have main : ∀ (n : ℕ) (l : List String), l.length ≤ n →
      (eraseDupsFirst l).length = l.toFinset.card := by
    intro n
    induction n with
    | zero =>
      intro l hlen
      rw [List.length_eq_zero.mp (Nat.le_zero.mp hlen)]
      rw [eraseDupsFirst]
      simp
    | succ n ih =>
      intro l hlen
      cases l with
      | nil => rw [eraseDupsFirst]; simp
      | cons x xs =>
        rw [eraseDupsFirst]
        have hfil : (xs.filter (fun y => decide (y ≠ x))).toFinset =
            xs.toFinset.erase x := by
          ext a
          simp [List.mem_filter, Finset.mem_erase, and_comm]
        have hins : insert x xs.toFinset = insert x (xs.toFinset.erase x) := by
          ext a
          simp only [Finset.mem_insert, Finset.mem_erase]
          constructor
          · rintro (rfl | ha)
            · exact Or.inl rfl
            · by_cases hax : a = x
              · exact Or.inl hax
              · exact Or.inr ⟨hax, ha⟩
          · rintro (rfl | ⟨_, ha⟩)
            · exact Or.inl rfl
            · exact Or.inr ha
        rw [List.length_cons,
          ih (xs.filter (fun y => decide (y ≠ x)))
            (le_trans (List.length_filter_le _ _) (by simpa using hlen)),
          hfil, List.toFinset_cons, hins,
          Finset.card_insert_of_not_mem (Finset.not_mem_erase x _)]
  intro l
  exact main l.length l (le_refl _)

/-- C8: the merged groups partition the input — the concatenation of the
groups is a permutation of the (non-empty) input list, `deduplicate`
merges exactly those groups — and every group is non-empty with
`sourceCount` equal to the number of distinct source names among its
members, hence at least 1. -/
theorem deduplicate_partitions_and_source_counts (cfg : DedupConfig)
    (now : ℚ) (items : List RawNewsItem) (hne : items ≠ []) :
    ((dedupGroups cfg items).flatten).Perm items ∧
    deduplicate cfg now items = (dedupGroups cfg items).map (mergeGroup now) ∧
    ∀ g ∈ dedupGroups cfg items, g ≠ [] ∧
      (mergeGroup now g).sourceCount =
        (g.map (fun i => i.source)).toFinset.card ∧
      1 ≤ (mergeGroup now g).sourceCount := by
  refine ⟨dedupGroups_join_perm cfg items, rfl, ?_⟩
  intro g hg
  obtain ⟨x, t, rfl, _⟩ := dedupGroups_seed_similar cfg items g hg
  have hsc : (mergeGroup now (x :: t)).sourceCount =
      (eraseDupsFirst ((x :: t).map (fun i => i.source))).length := rfl
  rw [hsc, eraseDupsFirst_length_card]
  refine ⟨by simp, rfl, ?_⟩
  apply Finset.card_pos.mpr
  exact ⟨x.source, by simp⟩

/-- C8 witness at a one-item batch. -/
theorem deduplicate_partitions_and_source_counts_witness :
    ((dedupGroups defaultDedupConfig [warItemA]).flatten).Perm [warItemA] ∧
    deduplicate defaultDedupConfig 0 [warItemA] =
      (dedupGroups defaultDedupConfig [warItemA]).map (mergeGroup 0) ∧
    ∀ g ∈ dedupGroups defaultDedupConfig [warItemA], g ≠ [] ∧
      (mergeGroup 0 g).sourceCount =
        (g.map (fun i => i.source)).toFinset.card ∧
      1 ≤ (mergeGroup 0 g).sourceCount :=
  deduplicate_partitions_and_source_counts defaultDedupConfig 0 [warItemA]
    (by simp)

theorem abs_sin_eq_sin_abs (x : ℝ) (hle : |x| ≤ Real.pi) :
    |Real.sin x| = Real.sin |x| := by
  rcases le_or_lt 0 x with hx | hx
  · rw [abs_of_nonneg hx, abs_of_nonneg]
    exact Real.sin_nonneg_of_nonneg_of_le_pi hx (by rwa [abs_of_nonneg hx] at hle)
  · have hsx : Real.sin x ≤ 0 := by
      apply Real.sin_nonpos_of_nonnpos_of_neg_pi_le (le_of_lt hx)
      rw [abs_of_neg hx] at hle
      linarith
    rw [abs_of_neg hx, Real.sin_neg, abs_of_nonpos hsx]

/-- On the equator the haversine formula collapses to arc length:
`6371 * |Δlon| * π/180` (for small longitude differences). -/
theorem haversine_equator (l1 l2 : ℝ) (h : |l2 - l1| ≤ 1) :
    haversineDistance 0 l1 0 l2 = 6371 * (|l2 - l1| * (Real.pi / 180)) := by
  have hpi := Real.pi_pos
  have hpile : Real.pi ≤ 4 := Real.pi_le_four
  set D := l2 - l1 with hD
  set th := toRadR D / 2 with hth
  have habs : |th| = |D| * (Real.pi / 180) / 2 := by
    rw [hth, toRadR, abs_div, abs_mul,
      abs_of_pos (by positivity : (0:ℝ) < Real.pi / 180)]
    norm_num
  have hsmall : |th| < Real.pi / 2 := by
    rw [habs]
    nlinarith [abs_nonneg D]
  have hth_pi : |th| ≤ Real.pi := le_trans (le_of_lt hsmall) (by linarith)
  have hcospos : 0 < Real.cos th := by
    apply Real.cos_pos_of_mem_Ioo
    constructor
    · exact neg_lt_of_abs_lt hsmall
    · exact lt_of_abs_lt hsmall
  unfold haversineDistance
  simp only [sub_zero, sub_self]
  have h0 : toRadR 0 = 0 := by simp [toRadR]
  rw [h0]
  simp only [Real.sin_zero, Real.cos_zero, zero_div, mul_zero, zero_mul, one_mul,
    zero_add, mul_one]
  have hsq : Real.sqrt (Real.sin (toRadR D / 2) * Real.sin (toRadR D / 2)) =
      |Real.sin th| := by
    rw [← hth, Real.sqrt_mul_self_eq_abs]
  have h1a : 1 - Real.sin (toRadR D / 2) * Real.sin (toRadR D / 2) =
      Real.cos th * Real.cos th := by
    rw [← hth]
    linear_combination (-1 : ℝ) * Real.sin_sq_add_cos_sq th
  rw [hsq, h1a, Real.sqrt_mul_self_eq_abs, abs_of_pos hcospos]
  rw [abs_sin_eq_sin_abs th hth_pi, ← Real.cos_abs th]
  rw [jsAtan2, if_pos (by rwa [Real.cos_abs] : 0 < Real.cos |th|)]
  rw [← Real.tan_eq_sin_div_cos, Real.arctan_tan]
  · rw [habs]; ring
  · linarith [abs_nonneg th]
  · exact hsmall

theorem hav_two_fifths : haversineDistance 0 0 0 (2/5) ≤ 50 := by
  rw [haversine_equator 0 (2/5) (by rw [abs_le]; constructor <;> norm_num)]
  rw [show |(2/5 : ℝ) - 0| = 2/5 by norm_num]
  nlinarith [Real.pi_lt_315]

theorem hav_neg_two_fifths : haversineDistance 0 0 0 (-(2/5)) ≤ 50 := by
  rw [haversine_equator 0 (-(2/5)) (by rw [abs_le]; constructor <;> norm_num)]
  rw [show |(-(2/5) : ℝ) - 0| = 2/5 by norm_num]
  nlinarith [Real.pi_lt_315]

theorem hav_four_fifths : 50 < haversineDistance 0 (2/5) 0 (-(2/5)) := by
  rw [haversine_equator (2/5) (-(2/5)) (by rw [abs_le]; constructor <;> norm_num)]
  rw [show |(-(2/5) : ℝ) - 2/5| = 4/5 by norm_num]
  nlinarith [Real.pi_gt_three]

theorem lev2_self : ∀ (l : List Char), lev2 l l = 0 := by
  intro l
  induction l with
  | nil => rw [lev2]; rfl
  | cons x xs ih => rw [lev2]; simp [ih]

/-- `fuzzball.ratio` of a string with itself is 100. -/
theorem fuzzRatioOf_self (s : String) : fuzzRatioOf s s = 100 := by
  unfold fuzzRatioOf
  rw [lev2_self]
  by_cases h : s.length + s.length = 0
  · rw [if_pos h]
  · rw [if_neg h]
    have ht : ((s.length + s.length : ℕ) : ℚ) ≠ 0 := by exact_mod_cast h
    have harg : 100 * (((s.length + s.length : ℕ) : ℚ) - ((0:ℕ):ℚ)) /
        ((s.length + s.length : ℕ) : ℚ) = 100 := by
      have hne2 : ((s.length : ℚ) + s.length) ≠ 0 := by push_cast at ht; exact ht
      push_cast
      rw [sub_zero, mul_div_assoc, div_self hne2, mul_one]
    rw [harg]
    norm_num [jsRound]

/-- Three equator items with identical titles and timestamps: a seed at
longitude 0 and two neighbours 0.4 degrees east and west (about 44.5 km
from the seed but about 89 km from each other). -/
def eqItemA : RawNewsItem :=
  { title := "quake hits", summary := none, url := "a", timestamp := 0,
    source := "s1", imageUrl := none,
    location := some { lat := some 0, lng := some 0, name := none },
    gdeltTone := none, themes := [] }

def eqItemB : RawNewsItem :=
  { title := "quake hits", summary := none, url := "b", timestamp := 0,
    source := "s2", imageUrl := none,
    location := some { lat := some 0, lng := some (2/5), name := none },
    gdeltTone := none, themes := [] }

def eqItemC : RawNewsItem :=
  { title := "quake hits", summary := none, url := "c", timestamp := 0,
    source := "s3", imageUrl := none,
    location := some { lat := some 0, lng := some (-(2/5)), name := none },
    gdeltTone := none, themes := [] }

theorem similar_eqAB : areSimilar defaultDedupConfig eqItemA eqItemB := by
  refine ⟨by norm_num [eqItemA, eqItemB, defaultDedupConfig], ?_, ?_⟩
  · intro pa pb ha hb
    simp only [coordsOf, eqItemA, eqItemB] at ha hb
    obtain rfl : pa = (0, 0) := by simpa using ha.symm
    obtain rfl : pb = (0, 2/5) := by simpa using hb.symm
    push_cast
    norm_num [defaultDedupConfig]
    exact hav_two_fifths
  · rw [show eqItemB.title = eqItemA.title from rfl, fuzzRatioOf_self]
    norm_num [defaultDedupConfig]

theorem similar_eqAC : areSimilar defaultDedupConfig eqItemA eqItemC := by
  refine ⟨by norm_num [eqItemA, eqItemC, defaultDedupConfig], ?_, ?_⟩
  · intro pa pb ha hb
    simp only [coordsOf, eqItemA, eqItemC] at ha hb
    obtain rfl : pa = (0, 0) := by simpa using ha.symm
    obtain rfl : pb = (0, -(2/5)) := by simpa using hb.symm
    push_cast
    norm_num [defaultDedupConfig]
    exact hav_neg_two_fifths
  · rw [show eqItemC.title = eqItemA.title from rfl, fuzzRatioOf_self]
    norm_num [defaultDedupConfig]

open Classical in
theorem dedup_run_eqABC :
    dedupGroups defaultDedupConfig [eqItemA, eqItemB, eqItemC] =
      [[eqItemA, eqItemB, eqItemC]] := by
  have e1 : decide (areSimilar defaultDedupConfig eqItemA eqItemB) = true :=
    decide_eq_true similar_eqAB
  have e2 : decide (areSimilar defaultDedupConfig eqItemA eqItemC) = true :=
    decide_eq_true similar_eqAC
  rw [dedupGroups_cons]
  simp only [List.filter_cons, List.filter_nil, e1, e2, if_true, Bool.not_true,
    Bool.false_eq_true, if_false, dedupGroups_nil]

/-- C3 counterexample: all three items land in one group (each matches
the seed), yet the two coordinate-bearing flank items are farther apart
than the configured 50 km radius — and, titles identical, they are not
forced into separate groups. -/
theorem dedup_same_group_beyond_radius :
    dedupGroups defaultDedupConfig [eqItemA, eqItemB, eqItemC] =
      [[eqItemA, eqItemB, eqItemC]] ∧
    eqItemB.title = eqItemC.title ∧
    ∃ pb pc, coordsOf eqItemB = some pb ∧ coordsOf eqItemC = some pc ∧
      (defaultDedupConfig.radiusKm : ℝ) <
        haversineDistance pb.1 pb.2 pc.1 pc.2 := by
  refine ⟨dedup_run_eqABC, rfl, (0, 2/5), (0, -(2/5)), rfl, rfl, ?_⟩
  push_cast
  norm_num [defaultDedupConfig]
  exact hav_four_fifths

open Classical in
/-- C3 (amended): the radius constraint holds against the group seed —
every coordinate-bearing member of a greedy group is within the
configured radius of the coordinate-bearing first item of the group — and for
a two-item input the radius is decisive: two coordinate-bearing items
farther apart than the radius end up in separate groups even with
identical titles. -/
theorem dedup_radius_against_seed (cfg : DedupConfig) :
    (∀ (items : List RawNewsItem) (g : List RawNewsItem),
      g ∈ dedupGroups cfg items →
      ∀ (seed : RawNewsItem) (t : List RawNewsItem), g = seed :: t →
      ∀ y ∈ t, ∀ pa pb, coordsOf seed = some pa → coordsOf y = some pb →
        haversineDistance pa.1 pa.2 pb.1 pb.2 ≤ (cfg.radiusKm : ℝ)) ∧
    (∀ (a b : RawNewsItem) (pa pb : ℚ × ℚ),
      coordsOf a = some pa → coordsOf b = some pb →
      (cfg.radiusKm : ℝ) < haversineDistance pa.1 pa.2 pb.1 pb.2 →
      dedupGroups cfg [a, b] = [[a], [b]]) := by
  constructor
  · intro items g hg seed t hseed y hy pa pb hca hcb
    obtain ⟨x, t2, hxt, hsim⟩ := dedupGroups_seed_similar cfg items g hg
    rw [hseed] at hxt
    obtain ⟨rfl, rfl⟩ : seed = x ∧ t = t2 := by
      constructor <;> [exact (List.cons.injEq _ _ _ _ ▸ hxt).1;
        exact (List.cons.injEq _ _ _ _ ▸ hxt).2]
    obtain ⟨_, hdist, _⟩ := hsim y hy
    exact hdist pa pb hca hcb
  · intro a b pa pb hca hcb hfar
    have hnot : ¬ areSimilar cfg a b := by
      rintro ⟨_, hdist, _⟩
      exact absurd (hdist pa pb hca hcb) (not_le.mpr hfar)
    have e1 : decide (areSimilar cfg a b) = false := decide_eq_false hnot
    rw [dedupGroups_cons]
    simp only [List.filter_cons, List.filter_nil, e1, Bool.false_eq_true,
      if_false, Bool.not_false, if_true]
    rw [dedupGroups_cons]
    simp only [List.filter_nil, dedupGroups_nil]

/-- C3 witness: in the three-item equator run, member `eqItemB` is
within 50 km of the seed; and the flank pair alone, being 89 km apart,
is split into two groups. -/
theorem dedup_radius_against_seed_witness :
    haversineDistance ((0:ℚ) : ℝ) ((0:ℚ) : ℝ) ((0:ℚ) : ℝ) (((2/5 : ℚ)) : ℝ) ≤
      (defaultDedupConfig.radiusKm : ℝ) ∧
    dedupGroups defaultDedupConfig [eqItemB, eqItemC] = [[eqItemB], [eqItemC]] := by
  obtain ⟨h1, h2⟩ := dedup_radius_against_seed defaultDedupConfig
  constructor
  · exact h1 [eqItemA, eqItemB, eqItemC] [eqItemA, eqItemB, eqItemC]
      (by rw [dedup_run_eqABC]; simp) eqItemA [eqItemB, eqItemC] rfl
      eqItemB (by simp) (0, 0) (0, 2/5) rfl rfl
  · apply h2 eqItemB eqItemC (0, 2/5) (0, -(2/5)) rfl rfl
    push_cast
    norm_num [defaultDedupConfig]
    exact hav_four_fifths

/-- A coordinate-bearing item; re-aggregating it is the C1 failing input. -/
def persistItem : RawNewsItem :=
  { title := "war", summary := none, url := "u", timestamp := 0,
    source := "reuters", imageUrl := none,
    location := some { lat := some 10, lng := some 20, name := none },
    gdeltTone := none, themes := [] }

open Classical in
theorem dedup_run_single :
    dedupGroups defaultDedupConfig [persistItem] = [[persistItem]] := by
  rw [dedupGroups_cons]
  simp [dedupGroups_nil]

/-- C1: running the aggregation pass twice on the unchanged one-item
batch persists two rows for the same event.  Each run draws a fresh
`uuidv4` id, so the `ON CONFLICT (id)` clause of the second run never fires
and a duplicate row (same title, coordinates, intensity and source
count) is inserted under the new id instead of being merged. -/
theorem aggregation_rerun_duplicates_rows :
    runAggregation (fun _ => "id2") wmWar 0 defaultDedupConfig [persistItem]
      (runAggregation (fun _ => "id1") wmWar 0 defaultDedupConfig [persistItem]
        []) =
      [{ id := "id1", title := "war", summary := "", lat := 10, lng := 20,
         intensity := 40, sourceCount := 1 },
       { id := "id2", title := "war", summary := "", lat := 10, lng := 20,
         intensity := 40, sourceCount := 1 }] ∧
    ("id1" : String) ≠ "id2" := by
  constructor
  · unfold runAggregation pipelineEvents deduplicate
    rw [dedup_run_single]
    norm_num +decide [convertToNewsEvents, mergeGroup, pickCanonical,
      qualityScore, latTruthy, latDefined, strTruthy, eraseDupsFirst,
      latOrZero, lngOrZero, filterValidEvents, insertEventRows, upsertRow,
      classify, classifyFold, CATEGORY_ORDER, stepMax, scoresOf, themeScoreOf,
      keywordScoreOf, toneScoreOf, categoryKeywords, keywordWeight,
      GDELT_THEME_MAP, wmWar, persistItem, itemText, calculateIntensity,
      rawIntensity, analyzeKeywords, INTENSITY_KEYWORDS, calculateRecencyBonus,
      sourceCountWeight, toneWeight, recencyDecayHours, categoryMultiplier,
      jsRound, List.filter, List.enum, List.enumFrom]
  · decide
